import Mathlib

/-!
Verification of the HeartIntelligence health-metric retrieval and
summarization pipeline against its specification.

The dashboard status helpers (`getVitalStatus`, `getMetricStatus`,
`getStatusBadge`) are embedded directly from `static/dashboard.js`.
The query-driven pipeline (Sample Store loader, Aggregator, Query
Classifier, Retriever, Orchestrator) lives in Python modules that are
documented in the repository (`MOBILE_DATA_INTEGRATION.md`, the Railway
fix notes) but whose source is not part of this tree; those components
are modelled from the specification, as marked on each definition.

JavaScript numbers are modelled as rationals; `null`/`undefined`/absent
values are modelled with `Option`.
-/

/-- One bound pair of a normal range, e.g. the systolic component
`\x7bmin, max\x7d` of a blood-pressure normal range (`dashboard.js`). -/
structure SubRange where
  min : ℚ
  max : ℚ
deriving DecidableEq

/-- A `normal_range` object as consumed by `getVitalStatus` in
`dashboard.js`.  It either carries `systolic`/`diastolic` sub-ranges
(blood pressure) or scalar `min`/`max` bounds; absent fields are
`none` (JavaScript `undefined`). -/
structure NormalRange where
  systolic : Option SubRange
  diastolic : Option SubRange
  min : Option ℚ
  max : Option ℚ
deriving DecidableEq

/-- A vital-sign record as rendered by the dashboard: a displayed
`value` (string, possibly absent) and an optional `normal_range`. -/
structure Vital where
  value : Option String
  normal_range : Option NormalRange
deriving DecidableEq

/-- The `\x7bclassName, text\x7d` pair returned by `getVitalStatus`. -/
structure VitalStatus where
  className : String
  text : String
deriving DecidableEq

/-- Accumulate a digit list into a natural number. -/
def digitsToNat (l : List Char) : ℕ :=
  l.foldl (fun a c => a * 10 + (c.toNat - 48)) 0

/-- Parse an unsigned decimal numeral (digits, optionally followed by a
point and digits) to an exact rational; `none` for anything else.
Helper for the JavaScript numeric-conversion models below. -/
def parseDecimal (l : List Char) : Option ℚ :=
  let intPart := l.takeWhile Char.isDigit
  let rest := l.dropWhile Char.isDigit
  match rest with
  | [] => if intPart.isEmpty then none else some (digitsToNat intPart)
  | '.' :: frac =>
      if frac.all Char.isDigit ∧ (intPart ≠ [] ∨ frac ≠ []) then
        some ((digitsToNat intPart : ℚ) + (digitsToNat frac : ℚ) / (10 : ℚ) ^ frac.length)
      else none
  | _ => none

/-- Drop leading and trailing blanks from a character list (the
whitespace trimming JavaScript `Number` performs on strings). -/
def trimChars (l : List Char) : List Char :=
  ((l.dropWhile (fun c => c = ' ')).reverse.dropWhile (fun c => c = ' ')).reverse

/-- Model of the JavaScript `Number(string)` conversion used by
`getVitalStatus` (`.map(Number)` over the split value), restricted to
optionally-signed decimal numerals: surrounding whitespace is trimmed,
the empty string converts to `0`, and any non-numeral string yields
`none`, standing for JavaScript `NaN`. -/
def jsToNumber (s : String) : Option ℚ :=
  match trimChars s.toList with
  | [] => some 0
  | '-' :: rest => (parseDecimal rest).map (fun q => -q)
  | '+' :: rest => parseDecimal rest
  | l => parseDecimal l

/-- Split a character list on a separator character; like JavaScript
`String.prototype.split` with a one-character separator, the result
always has one more field than there are separators. -/
def splitCharsOn (sep : Char) : List Char → List (List Char)
  | [] => [[]]
  | c :: rest =>
    if c = sep then [] :: splitCharsOn sep rest
    else
      match splitCharsOn sep rest with
      | w :: ws => (c :: w) :: ws
      | [] => [[c]]

/-- Model of JavaScript `value.split('/')` used on blood-pressure
strings in `getVitalStatus`. -/
def jsSplit (sep : Char) (s : String) : List String :=
  (splitCharsOn sep s.toList).map String.mk

/-- The blood-pressure destructuring in `getVitalStatus`
(`dashboard.js` lines 176-177): `const [systolic, diastolic] =
String(vital.value).split('/').map(Number)` followed by the truthiness
guard `if (systolic && diastolic)`.  Returns the component pair when
both components are present, parse to numbers (not `NaN`) and are
nonzero; `none` when the guard fails. -/
def bpComponents (v : String) : Option (ℚ × ℚ) :=
  match (jsSplit '/' v).map jsToNumber with
  | some sv :: some dv :: _ => if sv ≠ 0 ∧ dv ≠ 0 then some (sv, dv) else none
  | _ => none

/-- Model of JavaScript `parseFloat(string)`: parses the longest
optionally-signed decimal prefix after trimming leading whitespace;
`none` stands for `NaN`. -/
def jsParseFloat (s : String) : Option ℚ :=
  let l := s.toList.dropWhile (fun c => c = ' ')
  match l with
  | '-' :: rest => (parseDecimal (rest.takeWhile (fun c => c.isDigit ∨ c = '.'))).map (fun q => -q)
  | '+' :: rest => parseDecimal (rest.takeWhile (fun c => c.isDigit ∨ c = '.'))
  | _ => parseDecimal (l.takeWhile (fun c => c.isDigit ∨ c = '.'))

/-- `getVitalStatus` from `static/dashboard.js` (lines 166-207).  Blood
pressure values (`normal_range` has `systolic` and `diastolic`) are
split on `/` and both components converted with `Number`; the JavaScript
truthiness test `systolic && diastolic` fails when a component is
missing, `NaN` (`none` here) or `0`, in which case the empty status is
returned.  Scalar vitals use `parseFloat` against `min`/`max`. -/
def getVitalStatus (vital : Vital) : VitalStatus :=
  match vital.value, vital.normal_range with
  | none, _ => ⟨"", ""⟩
  | _, none => ⟨"", ""⟩
  | some v, some nr =>
    if v = "" then ⟨"", ""⟩
    else
      match nr.systolic, nr.diastolic with
      | some sysR, some diaR =>
        match bpComponents v with
        | some (sv, dv) =>
          if sysR.min ≤ sv ∧ sv ≤ sysR.max ∧ diaR.min ≤ dv ∧ dv ≤ diaR.max then
            ⟨"status-normal", "✓ Normal"⟩
          else
            ⟨"status-abnormal", "⚠ Check"⟩
        | none => ⟨"", ""⟩
      | _, _ =>
        match nr.min, nr.max with
        | some lo, some hi =>
          match jsParseFloat v with
          | some nv =>
            if lo ≤ nv ∧ nv ≤ hi then ⟨"status-normal", "✓ Normal"⟩
            else ⟨"status-abnormal", "⚠ Check"⟩
          | none => ⟨"", ""⟩
        | _, _ => ⟨"", ""⟩

/-- A metric's `normal_range` in the mobile-health dashboard panels
(`\x7bmin, max\x7d`, both present when the object exists). -/
structure MetricRange where
  min : ℚ
  max : ℚ
deriving DecidableEq

/-- A mobile-health metric card: `current` value (`none` = `null`) and
optional `normal_range`, as consumed by `getMetricStatus` and
`getStatusBadge` in `dashboard.js`. -/
structure Metric where
  current : Option ℚ
  normal_range : Option MetricRange
deriving DecidableEq

/-- `getMetricStatus` from `static/dashboard.js` (lines 1262-1277). -/
def getMetricStatus (m : Metric) : String :=
  match m.normal_range, m.current with
  | some range, some val =>
    if range.min ≤ val ∧ val ≤ range.max then "status-normal"
    else if val < range.min * (9 / 10) ∨ range.max * (11 / 10) < val then "status-alert"
    else "status-borderline"
  | _, _ => ""

/-- `getStatusBadge` from `static/dashboard.js` (lines 1279-1294). -/
def getStatusBadge (m : Metric) : String :=
  match m.normal_range, m.current with
  | some range, some val =>
    if range.min ≤ val ∧ val ≤ range.max then
      "<span class=\"status-badge normal\">✓ Normal</span>"
    else if val < range.min * (9 / 10) ∨ range.max * (11 / 10) < val then
      "<span class=\"status-badge alert\">⚡ Alert</span>"
    else
      "<span class=\"status-badge borderline\">⚠️ Borderline</span>"
  | _, _ => ""

/-- C10: `getMetricStatus` and `getStatusBadge` implement the same
three-way classification: the `normal` badge appears exactly when the
status is `status-normal`, the `alert` badge exactly when it is
`status-alert`, the `borderline` badge exactly when it is
`status-borderline`; and when `normal_range` is absent or `current` is
null both functions return the empty string. -/
theorem getStatusBadge_refines_getMetricStatus (m : Metric) :
    (getStatusBadge m = "<span class=\"status-badge normal\">✓ Normal</span>" ↔
      getMetricStatus m = "status-normal") ∧
    (getStatusBadge m = "<span class=\"status-badge alert\">⚡ Alert</span>" ↔
      getMetricStatus m = "status-alert") ∧
    (getStatusBadge m = "<span class=\"status-badge borderline\">⚠️ Borderline</span>" ↔
      getMetricStatus m = "status-borderline") ∧
    (m.normal_range = none ∨ m.current = none →
      getMetricStatus m = "" ∧ getStatusBadge m = "") := by
  rcases m with ⟨cur, nr⟩
  unfold getMetricStatus getStatusBadge
  rcases nr with _ | ⟨range⟩ <;> rcases cur with _ | ⟨val⟩
  · simp
  · simp
  · simp
  · by_cases h1 : range.min ≤ val ∧ val ≤ range.max
    · simp [h1]
    · by_cases h2 : val < range.min * (9 / 10) ∨ range.max * (11 / 10) < val
      · simp [h1, h2]
      · simp [h1, h2]

/-- Witness for the hypothesis case of the C10 theorem: with no
`normal_range` and no `current` value, both helpers return `""`. -/
theorem getStatusBadge_refines_getMetricStatus_witness :
    getMetricStatus ⟨none, none⟩ = "" ∧ getStatusBadge ⟨none, none⟩ = "" :=
  (getStatusBadge_refines_getMetricStatus ⟨none, none⟩).2.2.2 (Or.inl rfl)

/-- C9: for a vital whose `normal_range` has both systolic and diastolic
bounds, when the value string splits on `/` into two numbers that are
both nonzero and not NaN, `getVitalStatus` returns `✓ Normal` with class
`status-normal` exactly when the systolic number lies in the systolic
range and the diastolic number lies in the diastolic range, and
`⚠ Check` with class `status-abnormal` otherwise; if the value is
missing, empty, or a component fails to parse or is `0`, the empty
status is returned. -/
theorem getVitalStatus_bp (vital : Vital) (nr : NormalRange) (sysR diaR : SubRange)
    (hnr : vital.normal_range = some nr)
    (hsys : nr.systolic = some sysR) (hdia : nr.diastolic = some diaR) :
    (∀ v a b, vital.value = some v → v ≠ "" → bpComponents v = some (a, b) →
      getVitalStatus vital =
        (if sysR.min ≤ a ∧ a ≤ sysR.max ∧ diaR.min ≤ b ∧ b ≤ diaR.max then
          ⟨"status-normal", "✓ Normal"⟩ else ⟨"status-abnormal", "⚠ Check"⟩)) ∧
    ((vital.value = none ∨ vital.value = some "") → getVitalStatus vital = ⟨"", ""⟩) ∧
    (∀ v, vital.value = some v → v ≠ "" → bpComponents v = none →
      getVitalStatus vital = ⟨"", ""⟩) := by
  obtain ⟨val?, rng?⟩ := vital
  simp only at hnr
  subst hnr
  refine ⟨?_, ?_, ?_⟩
  · intro v a b hv hne hab
    simp only at hv
    subst hv
    simp [getVitalStatus, hne, hsys, hdia, hab]
  · rintro (hv | hv) <;> simp only at hv <;> subst hv <;> simp [getVitalStatus]
  · intro v hv hne hab
    simp only at hv
    subst hv
    simp [getVitalStatus, hne, hsys, hdia, hab]

/-- Witness for C9: the blood-pressure reading `120/80` against normal
range `90-120/60-80` is classified normal, and an unparsable value
yields the empty status. -/
theorem getVitalStatus_bp_witness :
    getVitalStatus ⟨some "120/80", some ⟨some ⟨90, 120⟩, some ⟨60, 80⟩, none, none⟩⟩ =
      ⟨"status-normal", "✓ Normal"⟩ ∧
    getVitalStatus ⟨some "abc", some ⟨some ⟨90, 120⟩, some ⟨60, 80⟩, none, none⟩⟩ =
      ⟨"", ""⟩ := by
  constructor
  · have h :=
      (getVitalStatus_bp ⟨some "120/80", some ⟨some ⟨90, 120⟩, some ⟨60, 80⟩, none, none⟩⟩
        ⟨some ⟨90, 120⟩, some ⟨60, 80⟩, none, none⟩ ⟨90, 120⟩ ⟨60, 80⟩ rfl rfl rfl).1
        "120/80" 120 80 rfl (by decide) (by decide)
    rw [h]
    norm_num
  · exact
      (getVitalStatus_bp ⟨some "abc", some ⟨some ⟨90, 120⟩, some ⟨60, 80⟩, none, none⟩⟩
        ⟨some ⟨90, 120⟩, some ⟨60, 80⟩, none, none⟩ ⟨90, 120⟩ ⟨60, 80⟩ rfl rfl rfl).2.2
        "abc" rfl (by decide) (by decide)

/-- Lowercase a query at the character level (the classifier matches
case-insensitively). -/
def lowerChars (l : List Char) : List Char :=
  l.map Char.toLower

/-- Modelled from the spec: tokenization of a query into lowercased
words for keyword and time-phrase matching (`functions/
mobile_data_retriever.py` is not in the tree; §4.1 prescribes
case-insensitive keyword matching over the query text). -/
def normalizeQuery (s : String) : List String :=
  ((splitCharsOn ' ' (lowerChars s.toList)).map String.mk).filter (fun w => w ≠ "")

/-- `startsWithSeq ps ws` holds when the word list `ws` begins with the
phrase `ps`. -/
def startsWithSeq : List String → List String → Bool
  | [], _ => true
  | _ :: _, [] => false
  | p :: ps, w :: ws => (p == w) && startsWithSeq ps ws

/-- `hasSeq ps ws`: the phrase `ps` occurs as a consecutive run of
words inside `ws` — the model of "the query contains the phrase". -/
def hasSeq (ps : List String) : List String → Bool
  | [] => ps.isEmpty
  | w :: ws => startsWithSeq ps (w :: ws) || hasSeq ps ws

/-- `true` on a nonempty all-digit word. -/
def digitsOnly (w : String) : Bool :=
  !w.toList.isEmpty && w.toList.all Char.isDigit

/-- Numeric value of an all-digit word, `none` otherwise. -/
def wordToNat (w : String) : Option ℕ :=
  if digitsOnly w then some (digitsToNat w.toList) else none

/-- Modelled from the spec: the "last N days" / "last N weeks" pattern
of the time-range phrase table (§4.1).  Scans the word list for the
word `last` followed by a numeral and the unit `days` or `weeks`. -/
def findLastN : List String → Option (ℕ × String)
  | "last" :: n :: u :: rest =>
    if u = "days" ∨ u = "weeks" then
      match wordToNat n with
      | some k => some (k, u)
      | none => findLastN (n :: u :: rest)
    else findLastN (n :: u :: rest)
  | _ :: rest => findLastN rest
  | [] => none

/-- An inclusive resolved time range, as a pair of day indices. -/
structure TimeRange where
  start_date : ℤ
  end_date : ℤ
deriving DecidableEq

/-- Modelled from the spec: time-range resolution of the Query
Classifier (§4.1 and `MOBILE_DATA_INTEGRATION.md`, "Supported Time
Ranges in Queries"; the implementing module
`functions/mobile_data_retriever.py` is not in the tree).  The explicit
phrase table is checked in priority order: "today" → 0 days back;
"yesterday" → single previous day; "this/past week" → 7 days;
"last week" → 14 days; "this/last month" → 30 days; "last N days" /
"last N weeks" → N / 7·N days; otherwise a 7-day default.  The range
end is `now` except for "yesterday". -/
def resolveTimeRange (query : String) (now : ℤ) : TimeRange :=
  let qws := normalizeQuery query
  if hasSeq ["today"] qws then ⟨now, now⟩
  else if hasSeq ["yesterday"] qws then ⟨now - 1, now - 1⟩
  else if hasSeq ["this", "week"] qws || hasSeq ["past", "week"] qws then ⟨now - 7, now⟩
  else if hasSeq ["last", "week"] qws then ⟨now - 14, now⟩
  else if hasSeq ["this", "month"] qws || hasSeq ["last", "month"] qws then ⟨now - 30, now⟩
  else
    match findLastN qws with
    | some (n, u) => if u = "weeks" then ⟨now - 7 * n, now⟩ else ⟨now - n, now⟩
    | none => ⟨now - 7, now⟩

/-- Modelled from the spec: the fixed per-category keyword table (§4.1,
with the keyword lists from `MOBILE_DATA_INTEGRATION.md`, "Supported
Keywords"), each keyword pre-tokenized into words. -/
def keywordTable : List (String × List (List String)) :=
  [("heart_rate",
    [["heart", "rate"], ["heartrate"], ["hr"], ["bpm"], ["pulse"], ["heartbeat"],
     ["beats", "per", "minute"], ["resting", "heart", "rate"], ["heart", "rhythm"],
     ["cardiac", "rate"]]),
   ("blood_pressure",
    [["blood", "pressure"], ["bp"], ["systolic"], ["diastolic"], ["hypertension"],
     ["hypotension"], ["pressure", "reading"], ["mmhg"]]),
   ("hrv",
    [["heart", "rate", "variability"], ["hrv"], ["variability"], ["heart", "variability"],
     ["cardiac", "variability"]]),
   ("activity",
    [["steps"], ["walking"], ["activity"], ["exercise"], ["movement"], ["active"],
     ["physical", "activity"], ["daily", "steps"], ["step", "count"]])]

/-- The Query Classifier's output: matched categories and the resolved
time range (§3, `QueryIntent`). -/
structure QueryIntent where
  categories : List String
  time_range : TimeRange
deriving DecidableEq

/-- Modelled from the spec: `classify(query) -> QueryIntent` (§4.1).
A category matches when any of its keywords occurs in the query; zero
matches is a normal result, not an error. -/
def classify (query : String) (now : ℤ) : QueryIntent :=
  let qws := normalizeQuery query
  { categories := (keywordTable.filter (fun p => p.2.any (fun kw => hasSeq kw qws))).map
      (fun p => p.1),
    time_range := resolveTimeRange query now }

/-- C3: the time-range phrase table is checked in priority order —
"today" resolves to 0 days back, "yesterday" to the single previous
day, "this/past week" to 7 days, "last week" to 14 days, "this/last
month" to 30 days, "last N days"/"last N weeks" to N / 7·N days, and a
query matching none of the phrases defaults to a 7-day range. -/
theorem resolveTimeRange_phraseTable :
    (∀ q now, hasSeq ["today"] (normalizeQuery q) = true →
      resolveTimeRange q now = ⟨now, now⟩) ∧
    (∀ q now, hasSeq ["today"] (normalizeQuery q) = false →
      hasSeq ["yesterday"] (normalizeQuery q) = true →
      resolveTimeRange q now = ⟨now - 1, now - 1⟩) ∧
    (∀ q now, hasSeq ["today"] (normalizeQuery q) = false →
      hasSeq ["yesterday"] (normalizeQuery q) = false →
      (hasSeq ["this", "week"] (normalizeQuery q) = true ∨
        hasSeq ["past", "week"] (normalizeQuery q) = true) →
      resolveTimeRange q now = ⟨now - 7, now⟩) ∧
    (∀ q now, hasSeq ["today"] (normalizeQuery q) = false →
      hasSeq ["yesterday"] (normalizeQuery q) = false →
      hasSeq ["this", "week"] (normalizeQuery q) = false →
      hasSeq ["past", "week"] (normalizeQuery q) = false →
      hasSeq ["last", "week"] (normalizeQuery q) = true →
      resolveTimeRange q now = ⟨now - 14, now⟩) ∧
    (∀ q now, hasSeq ["today"] (normalizeQuery q) = false →
      hasSeq ["yesterday"] (normalizeQuery q) = false →
      hasSeq ["this", "week"] (normalizeQuery q) = false →
      hasSeq ["past", "week"] (normalizeQuery q) = false →
      hasSeq ["last", "week"] (normalizeQuery q) = false →
      (hasSeq ["this", "month"] (normalizeQuery q) = true ∨
        hasSeq ["last", "month"] (normalizeQuery q) = true) →
      resolveTimeRange q now = ⟨now - 30, now⟩) ∧
    (∀ q now n, hasSeq ["today"] (normalizeQuery q) = false →
      hasSeq ["yesterday"] (normalizeQuery q) = false →
      hasSeq ["this", "week"] (normalizeQuery q) = false →
      hasSeq ["past", "week"] (normalizeQuery q) = false →
      hasSeq ["last", "week"] (normalizeQuery q) = false →
      hasSeq ["this", "month"] (normalizeQuery q) = false →
      hasSeq ["last", "month"] (normalizeQuery q) = false →
      findLastN (normalizeQuery q) = some (n, "days") →
      resolveTimeRange q now = ⟨now - n, now⟩) ∧
    (∀ q now n, hasSeq ["today"] (normalizeQuery q) = false →
      hasSeq ["yesterday"] (normalizeQuery q) = false →
      hasSeq ["this", "week"] (normalizeQuery q) = false →
      hasSeq ["past", "week"] (normalizeQuery q) = false →
      hasSeq ["last", "week"] (normalizeQuery q) = false →
      hasSeq ["this", "month"] (normalizeQuery q) = false →
      hasSeq ["last", "month"] (normalizeQuery q) = false →
      findLastN (normalizeQuery q) = some (n, "weeks") →
      resolveTimeRange q now = ⟨now - 7 * n, now⟩) ∧
    (∀ q now, hasSeq ["today"] (normalizeQuery q) = false →
      hasSeq ["yesterday"] (normalizeQuery q) = false →
      hasSeq ["this", "week"] (normalizeQuery q) = false →
      hasSeq ["past", "week"] (normalizeQuery q) = false →
      hasSeq ["last", "week"] (normalizeQuery q) = false →
      hasSeq ["this", "month"] (normalizeQuery q) = false →
      hasSeq ["last", "month"] (normalizeQuery q) = false →
      findLastN (normalizeQuery q) = none →
      resolveTimeRange q now = ⟨now - 7, now⟩) := by
  refine ⟨?_, ?_, ?_, ?_, ?_, ?_, ?_, ?_⟩
  · intro q now h
    simp [resolveTimeRange, h]
  · intro q now h1 h2
    simp [resolveTimeRange, h1, h2]
  · intro q now h1 h2 h3
    rcases h3 with h3 | h3 <;> simp [resolveTimeRange, h1, h2, h3]
  · intro q now h1 h2 h3 h4 h5
    simp [resolveTimeRange, h1, h2, h3, h4, h5]
  · intro q now h1 h2 h3 h4 h5 h6
    rcases h6 with h6 | h6 <;> simp [resolveTimeRange, h1, h2, h3, h4, h5, h6]
  · intro q now n h1 h2 h3 h4 h5 h6 h7 h8
    simp [resolveTimeRange, h1, h2, h3, h4, h5, h6, h7, h8]
  · intro q now n h1 h2 h3 h4 h5 h6 h7 h8
    simp [resolveTimeRange, h1, h2, h3, h4, h5, h6, h7, h8]
  · intro q now h1 h2 h3 h4 h5 h6 h7 h8
    simp [resolveTimeRange, h1, h2, h3, h4, h5, h6, h7, h8]

/-- Witness for C3: each row of the phrase table exercised on a
concrete query, including the pattern row ("last 5 days",
"last 2 weeks") and the default row ("tell me a joke"). -/
theorem resolveTimeRange_phraseTable_witness :
    resolveTimeRange "today" 100 = ⟨100, 100⟩ ∧
    resolveTimeRange "yesterday" 100 = ⟨99, 99⟩ ∧
    resolveTimeRange "this week" 100 = ⟨93, 100⟩ ∧
    resolveTimeRange "past week" 100 = ⟨93, 100⟩ ∧
    resolveTimeRange "last week" 100 = ⟨86, 100⟩ ∧
    resolveTimeRange "this month" 100 = ⟨70, 100⟩ ∧
    resolveTimeRange "last month" 100 = ⟨70, 100⟩ ∧
    resolveTimeRange "last 5 days" 100 = ⟨95, 100⟩ ∧
    resolveTimeRange "last 2 weeks" 100 = ⟨86, 100⟩ ∧
    resolveTimeRange "tell me a joke" 100 = ⟨93, 100⟩ := by
  refine ⟨?_, ?_, ?_, ?_, ?_, ?_, ?_, ?_, ?_, ?_⟩
  · exact resolveTimeRange_phraseTable.1 "today" 100 (by decide)
  · exact resolveTimeRange_phraseTable.2.1 "yesterday" 100 (by decide) (by decide)
  · exact resolveTimeRange_phraseTable.2.2.1 "this week" 100 (by decide) (by decide)
      (Or.inl (by decide))
  · exact resolveTimeRange_phraseTable.2.2.1 "past week" 100 (by decide) (by decide)
      (Or.inr (by decide))
  · exact resolveTimeRange_phraseTable.2.2.2.1 "last week" 100 (by decide) (by decide)
      (by decide) (by decide) (by decide)
  · exact resolveTimeRange_phraseTable.2.2.2.2.1 "this month" 100 (by decide) (by decide)
      (by decide) (by decide) (by decide) (Or.inl (by decide))
  · exact resolveTimeRange_phraseTable.2.2.2.2.1 "last month" 100 (by decide) (by decide)
      (by decide) (by decide) (by decide) (Or.inr (by decide))
  · exact resolveTimeRange_phraseTable.2.2.2.2.2.1 "last 5 days" 100 5 (by decide) (by decide)
      (by decide) (by decide) (by decide) (by decide) (by decide) (by decide)
  · have h := resolveTimeRange_phraseTable.2.2.2.2.2.2.1 "last 2 weeks" 100 2 (by decide)
      (by decide) (by decide) (by decide) (by decide) (by decide) (by decide) (by decide)
    simpa using h
  · exact resolveTimeRange_phraseTable.2.2.2.2.2.2.2 "tell me a joke" 100 (by decide)
      (by decide) (by decide) (by decide) (by decide) (by decide) (by decide) (by decide)

/-- C5: every resolved time range is well-formed
(`start_date ≤ end_date`), and the phrase "yesterday" always yields a
single-day range covering exactly the previous day. -/
theorem resolveTimeRange_wellFormed :
    (∀ q now, (resolveTimeRange q now).start_date ≤ (resolveTimeRange q now).end_date) ∧
    (∀ now : ℤ, resolveTimeRange "yesterday" now = ⟨now - 1, now - 1⟩) := by
  constructor
  · intro q now
    unfold resolveTimeRange
    dsimp only
    split
    · exact le_refl _
    · split
      · exact le_refl _
      · split
        · exact sub_le_self _ (by norm_num)
        · split
          · exact sub_le_self _ (by norm_num)
          · split
            · exact sub_le_self _ (by norm_num)
            · split
              · split
                · exact sub_le_self _ (by positivity)
                · exact sub_le_self _ (by positivity)
              · exact sub_le_self _ (by norm_num)
  · intro now
    rfl

/-- One raw measurement of the Sample Store (§3): category, normalized
day index, numeric value.  Immutable once loaded. -/
structure Sample where
  category : String
  date : ℤ
  value : ℚ
deriving DecidableEq

/-- Per-category per-day aggregated statistics (§3, `DailyStat`). -/
structure DailyStat where
  date : ℤ
  avg : ℚ
  min : ℚ
  max : ℚ
  sum : ℚ
  count : ℕ
deriving DecidableEq

/-- Minimum of a value list (only applied to nonempty groups). -/
def minList : List ℚ → ℚ
  | [] => 0
  | [x] => x
  | x :: y :: rest => min x (minList (y :: rest))

/-- Maximum of a value list (only applied to nonempty groups). -/
def maxList : List ℚ → ℚ
  | [] => 0
  | [x] => x
  | x :: y :: rest => max x (maxList (y :: rest))

/-- Insert a day index into an ascending list. -/
def insertSortedDate (d : ℤ) : List ℤ → List ℤ
  | [] => [d]
  | e :: rest => if d ≤ e then d :: e :: rest else e :: insertSortedDate d rest

/-- Ascending sort of day indices (the Aggregator emits time-ordered
per-day lists). -/
def sortDates (l : List ℤ) : List ℤ :=
  l.foldr insertSortedDate []

/-- Modelled from the spec: the per-group statistics of the Aggregator
(§4.2) — avg/min/max/sum/count over the values of one category on one
calendar day (`functions/mobile_data_processor.py` is not in the
tree). -/
def statFor (samples : List Sample) (c : String) (d : ℤ) : DailyStat :=
  let vals := (samples.filter (fun s => s.category = c ∧ s.date = d)).map (fun s => s.value)
  { date := d, avg := vals.sum / (vals.length : ℚ), min := minList vals, max := maxList vals,
    sum := vals.sum, count := vals.length }

/-- Modelled from the spec: `aggregate(samples) -> map(category -> list
of DailyStat)` (§4.2).  Groups samples by category, then by day; days
with no samples are simply absent; the per-day list is ascending in
date. -/
def aggregate (samples : List Sample) : List (String × List DailyStat) :=
  ((samples.map (fun s => s.category)).dedup).map (fun c =>
    (c, (sortDates (((samples.filter (fun s => s.category = c)).map
          (fun s => s.date)).dedup)).map (statFor samples c)))

/-- The cached pipeline state (§3 Lifecycle): the loaded Sample Store
and the Aggregator output recomputed from it on (re)load. -/
structure PipelineState where
  store : List Sample
  cache : List (String × List DailyStat)
deriving DecidableEq

/-- Modelled from the spec: a (re)load recomputes the Aggregator cache
wholesale from the Sample Store; the store itself is never mutated. -/
def runAggregation (st : PipelineState) : PipelineState :=
  { st with cache := aggregate st.store }

/-- C6: the Aggregator is deterministic and idempotent — re-running
aggregation on the same Sample Store is a no-op on the pipeline state
(identical DailyStat sets), and aggregation never mutates the store. -/
theorem aggregate_idempotent :
    (∀ st : PipelineState, runAggregation (runAggregation st) = runAggregation st) ∧
    (∀ st : PipelineState, (runAggregation st).store = st.store ∧
      (runAggregation st).cache = aggregate st.store) :=
  ⟨fun _ => rfl, fun _ => ⟨rfl, rfl⟩⟩

/-- Per-category trend classification (§3, `TrendDescriptor`). -/
structure TrendDescriptor where
  direction : String
  change_pct : ℚ
deriving DecidableEq

/-- Mean of the daily averages of a stat list. -/
def avgOfStats (stats : List DailyStat) : ℚ :=
  (stats.map (fun s => s.avg)).sum / (stats.length : ℚ)

/-- Modelled from the spec: TrendDescriptor derivation (§4.2) —
compare the last 7-day window against the prior 7-day window;
`change_pct = (recent - prior) / prior * 100`, direction `stable` below
a 5% threshold, otherwise `up`/`down`; `stable` when either window is
empty. -/
def computeTrend (stats : List DailyStat) (now : ℤ) : TrendDescriptor :=
  let recent := stats.filter (fun s => decide (now - 7 < s.date ∧ s.date ≤ now))
  let prior := stats.filter (fun s => decide (now - 14 < s.date ∧ s.date ≤ now - 7))
  if recent.isEmpty ∨ prior.isEmpty then ⟨"stable", 0⟩
  else
    let change := (avgOfStats recent - avgOfStats prior) / avgOfStats prior * 100
    if |change| < 5 then ⟨"stable", change⟩
    else if 0 < change then ⟨"up", change⟩
    else ⟨"down", change⟩

/-- Per-category cap on retrieved items
(`max_items_per_subcategory = 10`, Railway fix notes /
`functions/health_analyzer.py`). -/
def max_items_per_subcategory : ℕ := 10

/-- Global cap on retrieved items across all categories
(`max_total_items = 100`, Railway fix notes /
`functions/health_analyzer.py`). -/
def max_total_items : ℕ := 100

/-- A per-category bounded slice of retrieved data (§3,
`RetrievedSlice`). -/
structure RetrievedSlice where
  category : String
  items : List DailyStat
  trend : TrendDescriptor
deriving DecidableEq

/-- Does a daily stat fall inside the (inclusive) time range? -/
def inRange (tr : TimeRange) (d : DailyStat) : Bool :=
  decide (tr.start_date ≤ d.date ∧ d.date ≤ tr.end_date)

/-- Truncate a time-ordered list to at most `cap` entries keeping the
tail — the "most recent entries preferred" truncation policy (§4.3). -/
def capTail (cap : ℕ) (l : List DailyStat) : List DailyStat :=
  l.drop (l.length - cap)

/-- Modelled from the spec: the Retriever's per-category loop (§4.3,
limits from the Railway fix notes; `functions/health_analyzer.py` is
not in the tree).  For each requested category: filter that category's
DailyStats to the time range, truncate to the per-category cap, then
truncate again to the remaining global budget; the running budget
shrinks by the number of items actually emitted, so once the global cap
is reached every later category receives an empty (but still valid)
slice. -/
def retrieveLoop (aggs : String → List DailyStat) (tr : TimeRange) (now : ℤ) :
    List String → ℕ → List RetrievedSlice
  | [], _ => []
  | c :: rest, remaining =>
    let capped := capTail max_items_per_subcategory ((aggs c).filter (inRange tr))
    let kept := capTail remaining capped
    ⟨c, kept, computeTrend (aggs c) now⟩ ::
      retrieveLoop aggs tr now rest (remaining - kept.length)

/-- Association-list lookup into the Aggregator output; a category with
no aggregated data yields the empty list (not an error, §4.3). -/
def lookupAggs (aggs : List (String × List DailyStat)) (c : String) : List DailyStat :=
  ((aggs.find? (fun p => p.1 = c)).map (fun p => p.2)).getD []

/-- Modelled from the spec: `retrieve(intent, aggregates)` (§4.3) with
the global budget `max_total_items`. -/
def retrieve (intent : QueryIntent) (aggs : List (String × List DailyStat)) (now : ℤ) :
    List RetrievedSlice :=
  retrieveLoop (lookupAggs aggs) intent.time_range now intent.categories max_total_items

/-- `capTail` emits at most `cap` entries. -/
theorem capTail_length_le_cap (cap : ℕ) (l : List DailyStat) :
    (capTail cap l).length ≤ cap := by
  simp [capTail]
  omega

/-- `capTail` never lengthens a list. -/
theorem capTail_length_le (cap : ℕ) (l : List DailyStat) :
    (capTail cap l).length ≤ l.length := by
  simp [capTail]

/-- `capTail` keeps a suffix (the tail) of its input. -/
theorem capTail_suffix (cap : ℕ) (l : List DailyStat) :
    (capTail cap l) <:+ l :=
  List.drop_suffix _ _

/-- The total number of items emitted by the Retriever loop never
exceeds the remaining global budget. -/
theorem retrieveLoop_total_le (aggs : String → List DailyStat) (tr : TimeRange) (now : ℤ) :
    ∀ (cats : List String) (rem : ℕ),
      ((retrieveLoop aggs tr now cats rem).map (fun s => s.items.length)).sum ≤ rem := by
  intro cats
  induction cats with
  | nil => intro rem; simp [retrieveLoop]
  | cons c rest ih =>
    intro rem
    simp only [retrieveLoop, List.map_cons, List.sum_cons]
    have h1 := capTail_length_le_cap rem
      (capTail max_items_per_subcategory ((aggs c).filter (inRange tr)))
    have h2 := ih (rem - (capTail rem
      (capTail max_items_per_subcategory ((aggs c).filter (inRange tr)))).length)
    omega

/-- Every slice emitted by the Retriever loop respects the
per-category cap. -/
theorem retrieveLoop_slice_le (aggs : String → List DailyStat) (tr : TimeRange) (now : ℤ) :
    ∀ (cats : List String) (rem : ℕ) (s : RetrievedSlice),
      s ∈ retrieveLoop aggs tr now cats rem →
      s.items.length ≤ max_items_per_subcategory := by
  intro cats
  induction cats with
  | nil => intro rem s hs; simp [retrieveLoop] at hs
  | cons c rest ih =>
    intro rem s hs
    simp only [retrieveLoop, List.mem_cons] at hs
    rcases hs with hs | hs
    · subst hs
      calc (capTail rem (capTail max_items_per_subcategory
              ((aggs c).filter (inRange tr)))).length
          ≤ (capTail max_items_per_subcategory ((aggs c).filter (inRange tr))).length :=
            capTail_length_le _ _
        _ ≤ max_items_per_subcategory := capTail_length_le_cap _ _
    · exact ih _ s hs

/-- With an exhausted global budget the Retriever loop emits only empty
slices. -/
theorem retrieveLoop_zero_budget (aggs : String → List DailyStat) (tr : TimeRange) (now : ℤ) :
    ∀ (cats : List String),
      ((retrieveLoop aggs tr now cats 0).map (fun s => s.items.length)).sum = 0 := by
  intro cats
  induction cats with
  | nil => simp [retrieveLoop]
  | cons c rest ih =>
    simp only [retrieveLoop, List.map_cons, List.sum_cons, Nat.zero_sub, ih]
    have h := capTail_length_le_cap 0
      (capTail max_items_per_subcategory ((aggs c).filter (inRange tr)))
    omega

/-- Dropping `k` slices of the Retriever loop's output is the loop run
on the remaining categories with the budget reduced by the items
already emitted. -/
theorem retrieveLoop_drop (aggs : String → List DailyStat) (tr : TimeRange) (now : ℤ) :
    ∀ (cats : List String) (rem k : ℕ),
      (retrieveLoop aggs tr now cats rem).drop k =
        retrieveLoop aggs tr now (cats.drop k)
          (rem - (((retrieveLoop aggs tr now cats rem).take k).map
            (fun s => s.items.length)).sum) := by
  intro cats
  induction cats with
  | nil => intro rem k; simp [retrieveLoop]
  | cons c rest ih =>
    intro rem k
    cases k with
    | zero => simp
    | succ k =>
      simp only [retrieveLoop, List.drop_succ_cons, List.take_succ_cons, List.map_cons,
        List.sum_cons]
      rw [ih]
      rw [Nat.sub_sub]

/-- C1: for every request the Retriever's output respects the global
cap of 100 items in total, the per-category cap of 10 items per slice,
and once the global cap has been reached (the first `k` slices already
hold 100 items) every subsequent slice is empty. -/
theorem retriever_caps (intent : QueryIntent) (aggs : List (String × List DailyStat)) (now : ℤ) :
    (((retrieve intent aggs now).map (fun s => s.items.length)).sum ≤ 100) ∧
    (∀ s ∈ retrieve intent aggs now, s.items.length ≤ 10) ∧
    (∀ k, (((retrieve intent aggs now).take k).map (fun s => s.items.length)).sum = 100 →
      (((retrieve intent aggs now).drop k).map (fun s => s.items.length)).sum = 0) := by
  refine ⟨?_, ?_, ?_⟩
  · exact retrieveLoop_total_le _ _ _ _ _
  · intro s hs
    exact retrieveLoop_slice_le _ _ _ _ _ s hs
  · intro k hk
    unfold retrieve at hk ⊢
    rw [retrieveLoop_drop, hk]
    have h : max_total_items - 100 = 0 := rfl
    rw [h]
    exact retrieveLoop_zero_budget _ _ _ _

/-- Ten identical daily stats on days 0-9, used as witness data. -/
def wStats : List DailyStat :=
  (List.range 10).map (fun i => ⟨(i : ℤ), 1, 1, 1, 1, 1⟩)

/-- Eleven category names, one more than fits under the global cap when
each category contributes its full per-category quota. -/
def wCats : List String :=
  ["a", "b", "c", "d", "e", "f", "g", "h", "i", "j", "k"]

/-- Witness aggregates: every category holds ten in-range stats. -/
def wAggs : List (String × List DailyStat) :=
  wCats.map (fun c => (c, wStats))

/-- Witness intent: all eleven categories over days 0-50. -/
def wIntent : QueryIntent :=
  ⟨wCats, ⟨0, 50⟩⟩

/-- Witness for C1: with 11 categories of 10 eligible items each, the
first 10 slices hold exactly 100 items, the global cap stops the 11th
slice (it is empty), the total stays at the cap, and a full slice sits
at the per-category cap. -/
theorem retriever_caps_witness :
    ((((retrieve wIntent wAggs 0).take 10).map (fun s => s.items.length)).sum = 100) ∧
    ((((retrieve wIntent wAggs 0).drop 10).map (fun s => s.items.length)).sum = 0) ∧
    (((retrieve wIntent wAggs 0).map (fun s => s.items.length)).sum ≤ 100) ∧
    ((⟨"a", wStats, ⟨"stable", 0⟩⟩ : RetrievedSlice).items.length ≤ 10) := by
  refine ⟨by decide, ?_, (retriever_caps wIntent wAggs 0).1, ?_⟩
  · exact (retriever_caps wIntent wAggs 0).2.2 10 (by decide)
  · exact (retriever_caps wIntent wAggs 0).2.1 _ (by decide)

/-- Every slice the Retriever loop emits is a suffix of that
category's range-filtered stat list. -/
theorem retrieveLoop_slice_suffix (aggs : String → List DailyStat) (tr : TimeRange) (now : ℤ) :
    ∀ (cats : List String) (rem : ℕ) (s : RetrievedSlice),
      s ∈ retrieveLoop aggs tr now cats rem →
      s.items <:+ ((aggs s.category).filter (inRange tr)) := by
  intro cats
  induction cats with
  | nil => intro rem s hs; simp [retrieveLoop] at hs
  | cons c rest ih =>
    intro rem s hs
    simp only [retrieveLoop, List.mem_cons] at hs
    rcases hs with hs | hs
    · subst hs
      exact (capTail_suffix _ _).trans (capTail_suffix _ _)
    · exact ih _ s hs

/-- C7: when the Retriever truncates a category's time-ordered stat
list it keeps a tail (suffix) of the range-filtered list — the most
recent entries, dropping the earliest — and whenever the category's
aggregated list is in chronological order, the kept entries remain in
chronological order. -/
theorem retrieve_truncation_keeps_tail (intent : QueryIntent)
    (aggs : List (String × List DailyStat)) (now : ℤ) :
    ∀ s ∈ retrieve intent aggs now,
      s.items <:+ ((lookupAggs aggs s.category).filter (inRange intent.time_range)) ∧
      (List.Sorted (fun a b : DailyStat => a.date ≤ b.date) (lookupAggs aggs s.category) →
        List.Sorted (fun a b : DailyStat => a.date ≤ b.date) s.items) := by
  intro s hs
  have hsuf := retrieveLoop_slice_suffix (lookupAggs aggs) intent.time_range now
    intent.categories max_total_items s hs
  refine ⟨hsuf, fun hsort => ?_⟩
  have hfil : List.Sorted (fun a b : DailyStat => a.date ≤ b.date)
      ((lookupAggs aggs s.category).filter (inRange intent.time_range)) :=
    List.Pairwise.filter _ hsort
  exact List.Pairwise.sublist hsuf.sublist hfil

/-- Twelve daily stats on days 0-11; two more than the per-category
cap. -/
def wStats12 : List DailyStat :=
  (List.range 12).map (fun i => ⟨(i : ℤ), 1, 1, 1, 1, 1⟩)

/-- Witness aggregates for the truncation claim. -/
def wAggs2 : List (String × List DailyStat) :=
  [("heart_rate", wStats12)]

/-- Witness intent for the truncation claim. -/
def wIntent2 : QueryIntent :=
  ⟨["heart_rate"], ⟨0, 50⟩⟩

/-- Witness for C7: with 12 eligible time-ordered entries, the emitted
slice is the final 10 entries (a suffix of the filtered list) and stays
in chronological order. -/
theorem retrieve_truncation_keeps_tail_witness :
    List.Sorted (fun a b : DailyStat => a.date ≤ b.date) (lookupAggs wAggs2 "heart_rate") ∧
    (⟨"heart_rate", wStats12.drop 2, ⟨"stable", 0⟩⟩ : RetrievedSlice).items <:+
      ((lookupAggs wAggs2 "heart_rate").filter (inRange wIntent2.time_range)) ∧
    List.Sorted (fun a b : DailyStat => a.date ≤ b.date)
      (⟨"heart_rate", wStats12.drop 2, ⟨"stable", 0⟩⟩ : RetrievedSlice).items := by
  have h := retrieve_truncation_keeps_tail wIntent2 wAggs2 20
    ⟨"heart_rate", wStats12.drop 2, ⟨"stable", 0⟩⟩ (by decide)
  exact ⟨by decide, h.1, h.2 (by decide)⟩

/-- One Category Summarizer unit as seen by the Orchestrator: the
wall-clock second at which its external summarization call would
return (`none` if it never returns) and the text it would produce.
Modelled from the spec (§4.4, §5): the call may be slow, fail, or
never complete. -/
structure SummarizerRun where
  finishTime : Option ℕ
  text : String
deriving DecidableEq

/-- The single global deadline, in seconds, applied to the whole
summarization fan-out (`asyncio.wait_for(..., timeout=180)` around
`_summarize_health_data_async`, Railway fix notes). -/
def summaryDeadline : ℕ := 180

/-- Fallback text for a category with no qualifying data in range
(§7 and the §8 scenario: the fallback states no data is available for
the period). -/
def noDataText (c : String) : String :=
  c ++ ": no data available for the requested period."

/-- Modelled from the spec: the cheap fallback summary built directly
from the category's TrendDescriptor and latest DailyStat, no model
call (§4.5). -/
def fallbackText (s : RetrievedSlice) : String :=
  match s.items.getLast? with
  | some latest =>
      s.category ++ ": avg " ++ toString latest.avg ++ " over the period, trend " ++
        s.trend.direction
  | none => noDataText s.category

/-- Did this category's summarizer unit deliver its result within the
deadline? -/
def unitFinished (env : String → SummarizerRun) (deadline : ℕ) (c : String) : Bool :=
  match (env c).finishTime with
  | some t => t ≤ deadline
  | none => false

/-- Modelled from the spec: the per-category assembly rule (§4.5) — a
category with no data gets the no-data fallback without launching a
unit; a unit that finished before the deadline contributes its model
summary; anything else (timeout, never returns) contributes the cheap
fallback. -/
def summaryFor (env : String → SummarizerRun) (deadline : ℕ) (s : RetrievedSlice) : String :=
  if s.items.isEmpty then noDataText s.category
  else if unitFinished env deadline s.category then (env s.category).text
  else fallbackText s

/-- A category is degraded when its unit was launched (it had data)
but did not deliver within the deadline. -/
def isDegraded (env : String → SummarizerRun) (deadline : ℕ) (s : RetrievedSlice) : Bool :=
  !s.items.isEmpty && !unitFinished env deadline s.category

/-- The caller-facing result of `process` (§6): assembled context
text plus metadata. -/
structure ProcessResult where
  context_text : String
  categories_used : List String
  degraded_categories : List String
  summaries : List (String × String)
deriving DecidableEq

/-- Modelled from the spec: how long the Orchestrator waits before
Assembling — until all launched units complete, but never past the
global deadline (§5: it suspends awaiting the first of "all units
complete" or "deadline elapsed"). -/
def elapsedTime (env : String → SummarizerRun) (deadline : ℕ)
    (slices : List RetrievedSlice) : ℕ :=
  min deadline
    (((slices.filter (fun s => !s.items.isEmpty)).map
      (fun s => ((env s.category).finishTime).getD deadline)).foldr max 0)

/-- Modelled from the spec: the Orchestrator's Assembling step (§4.5) —
every requested category appears in the output, via its model summary
or its fallback; categories whose units missed the deadline are listed
in `degraded_categories`. -/
def orchestrate (env : String → SummarizerRun) (deadline : ℕ)
    (slices : List RetrievedSlice) : ProcessResult :=
  { context_text := String.intercalate "\n" (slices.map (summaryFor env deadline)),
    categories_used := slices.map (fun s => s.category),
    degraded_categories := (slices.filter (isDegraded env deadline)).map (fun s => s.category),
    summaries := slices.map (fun s => (s.category, summaryFor env deadline s)) }

/-- Modelled from the spec: `process(query, now)` (§6) — classify,
retrieve against the aggregated store, fan out summarizer units under
the global deadline, assemble. -/
def process (env : String → SummarizerRun) (store : List Sample) (q : String) (now : ℤ) :
    ProcessResult :=
  orchestrate env summaryDeadline (retrieve (classify q now) (aggregate store) now)

/-- C2: a category whose summarizer unit does not deliver within the
single global 180-second deadline still appears in the assembled
output — via the fallback summary built from its TrendDescriptor and
latest DailyStat — is listed in `degraded_categories`, and the
Orchestrator never waits past the deadline before Assembling, so the
request neither blocks indefinitely nor fails as a whole. -/
theorem orchestrator_deadline_fallback (env : String → SummarizerRun)
    (slices : List RetrievedSlice) (s : RetrievedSlice)
    (hs : s ∈ slices) (hne : s.items.isEmpty = false)
    (hmiss : unitFinished env summaryDeadline s.category = false) :
    s.category ∈ (orchestrate env summaryDeadline slices).categories_used ∧
    (s.category, fallbackText s) ∈ (orchestrate env summaryDeadline slices).summaries ∧
    s.category ∈ (orchestrate env summaryDeadline slices).degraded_categories ∧
    elapsedTime env summaryDeadline slices ≤ summaryDeadline := by
  refine ⟨List.mem_map_of_mem _ hs, ?_, ?_, Nat.min_le_left _ _⟩
  · have hfb : summaryFor env summaryDeadline s = fallbackText s := by
      simp [summaryFor, hne, hmiss]
    exact List.mem_map.mpr ⟨s, hs, by rw [hfb]⟩
  · have hdeg : isDegraded env summaryDeadline s = true := by
      simp [isDegraded, hne, hmiss]
    exact List.mem_map_of_mem _ (List.mem_filter.mpr ⟨hs, hdeg⟩)

/-- A summarizer environment in which no unit ever returns. -/
def wEnv : String → SummarizerRun :=
  fun _ => ⟨none, "never returned"⟩

/-- A heart-rate slice with one day of data, used as witness input. -/
def wSliceHR : RetrievedSlice :=
  ⟨"heart_rate", [⟨0, 72, 70, 75, 217, 3⟩], ⟨"stable", 0⟩⟩

/-- Witness for C2: with a unit that never returns, the category is
still assembled via its fallback summary, marked degraded, and the
wait is bounded by the deadline. -/
theorem orchestrator_deadline_fallback_witness :
    "heart_rate" ∈ (orchestrate wEnv summaryDeadline [wSliceHR]).categories_used ∧
    ("heart_rate", fallbackText wSliceHR) ∈
      (orchestrate wEnv summaryDeadline [wSliceHR]).summaries ∧
    "heart_rate" ∈ (orchestrate wEnv summaryDeadline [wSliceHR]).degraded_categories ∧
    elapsedTime wEnv summaryDeadline [wSliceHR] ≤ summaryDeadline :=
  orchestrator_deadline_fallback wEnv [wSliceHR] wSliceHR (List.mem_singleton.mpr rfl)
    rfl rfl

/-- C4: a query matching no category keyword classifies to an empty
category set (without failing), and `process` then returns an empty
`categories_used`, an empty context text and no category summaries — a
normal "no relevant health data" result, not an error. -/
theorem process_noMatch (env : String → SummarizerRun) (store : List Sample)
    (q : String) (now : ℤ) (h : (classify q now).categories = []) :
    (process env store q now).categories_used = [] ∧
    (process env store q now).context_text = "" ∧
    (process env store q now).summaries = [] ∧
    (process env store q now).degraded_categories = [] := by
  unfold process retrieve
  rw [h]
  exact ⟨rfl, rfl, rfl, rfl⟩

/-- Witness for C4: "Tell me a joke" matches no category keyword and
produces the empty result. -/
theorem process_noMatch_witness :
    (classify "Tell me a joke" 0).categories = [] ∧
    (process wEnv [] "Tell me a joke" 0).categories_used = [] ∧
    (process wEnv [] "Tell me a joke" 0).context_text = "" ∧
    (process wEnv [] "Tell me a joke" 0).summaries = [] := by
  have h := process_noMatch wEnv [] "Tell me a joke" 0 (by decide)
  exact ⟨by decide, h.1, h.2.1, h.2.2.1⟩

/-- A field value of a raw input record: JSON numbers and strings, the
two shapes the loader inspects. -/
inductive FieldVal where
  | num : ℚ → FieldVal
  | str : String → FieldVal
deriving DecidableEq

/-- One line of the line-delimited input corpus, as parsed key/value
pairs; unknown keys may be present. -/
abbrev RawRecord := List (String × FieldVal)

/-- First value stored under a key, if any. -/
def lookupField (r : RawRecord) (k : String) : Option FieldVal :=
  (r.find? (fun p => p.1 == k)).map (fun p => p.2)

/-- Modelled from the spec: parsing one Sample record (§6) — requires
`category` (string), `timestamp` and numeric `value`; any other shape
is a malformed line (`none`); fields under other keys are never
consulted. -/
def parseRecord (r : RawRecord) : Option Sample :=
  match lookupField r "category", lookupField r "timestamp", lookupField r "value" with
  | some (.str c), some (.num t), some (.num v) => some ⟨c, Rat.floor t, v⟩
  | _, _, _ => none

/-- Modelled from the spec: the Sample Store loader over a record list
— malformed lines are skipped, the load continues (§7). -/
def loadRecords (records : List RawRecord) : List Sample :=
  records.filterMap parseRecord

/-- Modelled from the spec: loading the corpus file; a missing file
(`none`) yields an empty Sample Store instead of an error (§7). -/
def loadCorpus (file : Option (List RawRecord)) : List Sample :=
  match file with
  | some records => loadRecords records
  | none => []

/-- A successful `find?` is unaffected by appending further input. -/
theorem find?_append_of_some {α : Type} (p : α → Bool) (l1 l2 : List α) (a : α)
    (h : l1.find? p = some a) : (l1 ++ l2).find? p = some a := by
  rw [List.find?_append, h]
  rfl

/-- A field found in a record is still found after appending extra
fields. -/
theorem lookupField_append (r extra : RawRecord) (k : String) (v : FieldVal)
    (h : lookupField r k = some v) : lookupField (r ++ extra) k = some v := by
  unfold lookupField at h ⊢
  cases hf : r.find? (fun p => p.1 == k) with
  | none => rw [hf] at h; simp at h
  | some a =>
    rw [hf] at h
    rw [find?_append_of_some _ _ _ _ hf]
    exact h

/-- Shape characterization of a successful record parse. -/
theorem parseRecord_eq_some_iff (r : RawRecord) (s : Sample) :
    parseRecord r = some s ↔
      ∃ c t v, lookupField r "category" = some (.str c) ∧
        lookupField r "timestamp" = some (.num t) ∧
        lookupField r "value" = some (.num v) ∧ s = ⟨c, Rat.floor t, v⟩ := by
  constructor
  · intro h
    unfold parseRecord at h
    split at h
    · rename_i c t v hc ht hv
      exact ⟨c, t, v, hc, ht, hv, by injection h with h; exact h.symm⟩
    · exact absurd h (by simp)
  · rintro ⟨c, t, v, hc, ht, hv, rfl⟩
    unfold parseRecord
    rw [hc, ht, hv]

/-- With an empty aggregate cache every retrieved slice is empty. -/
theorem retrieveLoop_empty_aggs (tr : TimeRange) (now : ℤ) :
    ∀ (cats : List String) (rem : ℕ) (s : RetrievedSlice),
      s ∈ retrieveLoop (lookupAggs []) tr now cats rem → s.items = [] := by
  intro cats
  induction cats with
  | nil => intro rem s hs; simp [retrieveLoop] at hs
  | cons c rest ih =>
    intro rem s hs
    simp only [retrieveLoop, List.mem_cons] at hs
    rcases hs with hs | hs
    · subst hs
      simp [capTail, lookupAggs]
    · exact ih _ s hs

/-- C8: the Sample Store loader skips a malformed line and continues,
ignores unknown extra fields of a well-formed record, and on total
load failure (missing file) yields an empty store with which `process`
answers every query with per-category "no data available" text rather
than an error. -/
theorem loader_resilient :
    (∀ (pre post : List RawRecord) (bad : RawRecord), parseRecord bad = none →
      loadRecords (pre ++ bad :: post) = loadRecords (pre ++ post)) ∧
    (∀ (r extra : RawRecord) (s : Sample), parseRecord r = some s →
      parseRecord (r ++ extra) = some s) ∧
    (loadCorpus none = []) ∧
    (∀ (env : String → SummarizerRun) (q : String) (now : ℤ),
      ∀ p ∈ (process env (loadCorpus none) q now).summaries, p.2 = noDataText p.1) := by
  refine ⟨?_, ?_, rfl, ?_⟩
  · intro pre post bad hbad
    simp [loadRecords, List.filterMap_append, List.filterMap_cons, hbad]
  · intro r extra s h
    rcases (parseRecord_eq_some_iff r s).mp h with ⟨c, t, v, hc, ht, hv, rfl⟩
    exact (parseRecord_eq_some_iff _ _).mpr
      ⟨c, t, v, lookupField_append _ _ _ _ hc, lookupField_append _ _ _ _ ht,
        lookupField_append _ _ _ _ hv, rfl⟩
  · intro env q now p hp
    unfold process orchestrate at hp
    simp only [List.mem_map] at hp
    obtain ⟨s, hs, rfl⟩ := hp
    have hempty : s.items = [] := retrieveLoop_empty_aggs _ _ _ _ s hs
    simp [summaryFor, hempty]

/-- A well-formed raw record. -/
def wGood : RawRecord :=
  [("category", .str "heart_rate"), ("timestamp", .num 5), ("value", .num 72)]

/-- A malformed raw record (missing `timestamp` and `value`). -/
def wBad : RawRecord :=
  [("category", .str "heart_rate")]

/-- Witness for C8: the malformed record is skipped without aborting,
the extra field is ignored, the missing file gives an empty store, and
a heart-rate query over the empty store is answered with the no-data
text. -/
theorem loader_resilient_witness :
    parseRecord wBad = none ∧
    loadRecords [wGood, wBad] = loadRecords [wGood] ∧
    parseRecord (wGood ++ [("note", FieldVal.str "extra")]) =
      some ⟨"heart_rate", 5, 72⟩ ∧
    loadCorpus none = [] ∧
    ("heart_rate", noDataText "heart_rate") ∈
      (process wEnv (loadCorpus none) "pulse" 0).summaries ∧
    (("heart_rate", noDataText "heart_rate") : String × String).2 =
      noDataText ("heart_rate", noDataText "heart_rate").1 := by
  refine ⟨by decide, ?_, ?_, loader_resilient.2.2.1, by decide, ?_⟩
  · exact loader_resilient.1 [wGood] [] wBad (by decide)
  · exact loader_resilient.2.1 wGood [("note", FieldVal.str "extra")]
      ⟨"heart_rate", 5, 72⟩ (by decide)
  · exact loader_resilient.2.2.2 wEnv "pulse" 0 ("heart_rate", noDataText "heart_rate")
      (by decide)
